import Mathlib

/-!
Verification of the microblog-gen post-rendering pipeline and publication-date
registry, as a shallow embedding of the Go sources.

Embedding conventions:
* The external gomarkdown parser is a black box that turns raw Markdown into a
  list of typed top-level block nodes (`MdNode`); the renderer turns a node back
  into an HTML string.  Headings are kept structured (level + rendered inline
  HTML) because the code manipulates their rendered form; paragraphs carry their
  rendered HTML opaquely.
* `time.Time` values are modelled as `Timestamp` (calendar day as a `Nat`,
  time-of-day in seconds); `time.DateOnly` formatting is a function of the day
  component alone.
* The sqlite `posts` table of one collection is modelled as the list of its
  rows in insertion order; the `blog.sqlite` file at a location is
  `Option` of that (absent / present).
* Concurrency (the registry pool's first-access race) is modelled by an explicit
  small-step interleaving of two acquirers.
-/

/-- Model of a Go `time.Time`: `day` is the calendar date (days since an epoch),
`secs` the time-of-day component.  `time.DateOnly` ("YYYY-MM-DD") formatting
depends only on `day`. -/
structure Timestamp where
  day : Nat
  secs : Nat
deriving DecidableEq, Repr

/-- Abstraction of `t.Format(time.DateOnly)`: the "YYYY-MM-DD" text is a
function of the calendar day alone, injective in it; we render the day number. -/
def formatDate (day : Nat) : String := toString day

/-- A top-level block node of the parsed Markdown document, as classified by
`WriteHtml` (src/unnamed/part_001:182-194): `*ast.Heading` (level and the
renderer's HTML for its inline content), `*ast.Paragraph` (its rendered HTML),
or any other node type. -/
inductive MdNode
  | heading (level : Nat) (inner : String)
  | paragraph (html : String)
  | other (descr : String)
deriving DecidableEq, Repr

/-- The four input-shape failures of extraction in `WriteHtml`
(src/unnamed/part_001:186,192,196,206). -/
inductive ExtractErr
  | NoHeading
  | MultipleHeadings
  | NoParagraphs
  | UnsupportedBlock
deriving DecidableEq, Repr

/-- The classification loop of `WriteHtml` (src/unnamed/part_001:182-207):
walks the top-level nodes keeping the heading seen so far (`oh`) and the
rendered paragraphs in order (`ps`); a second heading fails immediately with
`MultipleHeadings`, any unsupported node fails immediately with
`UnsupportedBlock`; after the loop a missing heading is `NoHeading` and an
empty paragraph list is `NoParagraphs`. -/
def scanNodes : List MdNode → Option (Nat × String) → List String →
    Except ExtractErr ((Nat × String) × List String)
  | [], none, _ => .error .NoHeading
  | [], some h, ps => if ps = [] then .error .NoParagraphs else .ok (h, ps)
  | MdNode.heading lvl inner :: rest, none, ps => scanNodes rest (some (lvl, inner)) ps
  | MdNode.heading _ _ :: _, some _, _ => .error .MultipleHeadings
  | MdNode.paragraph html :: rest, oh, ps => scanNodes rest oh (ps ++ [html])
  | MdNode.other _ :: _, _, _ => .error .UnsupportedBlock

/-- Document extraction: run the classification loop on the top-level nodes. -/
def extract (nodes : List MdNode) : Except ExtractErr ((Nat × String) × List String) :=
  scanNodes nodes none []

/-- The `strings.NewReplacer("<h2>","","</h2>","","<h3>","","</h3>","")` of
`WriteHtml` (src/unnamed/part_001:198-204): a single left-to-right pass that
deletes non-overlapping occurrences of exactly those four tag strings and
continues after each match. -/
def stripHeadingTags : List Char → List Char
  | '<' :: 'h' :: '2' :: '>' :: rest => stripHeadingTags rest
  | '<' :: '/' :: 'h' :: '2' :: '>' :: rest => stripHeadingTags rest
  | '<' :: 'h' :: '3' :: '>' :: rest => stripHeadingTags rest
  | '<' :: '/' :: 'h' :: '3' :: '>' :: rest => stripHeadingTags rest
  | c :: rest => c :: stripHeadingTags rest
  | [] => []

/-- The character list of the closing tag `"</h2>"`. -/
def closeH2 : List Char := ['<', '/', 'h', '2', '>']

/-- The character list of the closing tag `"</h3>"`. -/
def closeH3 : List Char := ['<', '/', 'h', '3', '>']

/-- The gomarkdown HTML renderer applied to a heading node: the inline content
rendered to HTML, wrapped in the heading-level tags. -/
def renderHeadingHtml (lvl : Nat) (inner : String) : String :=
  "<h" ++ toString lvl ++ ">" ++ inner ++ "</h" ++ toString lvl ++ ">"

/-- `p.Heading` as computed by `WriteHtml` (src/unnamed/part_001:204): render
the heading node to HTML and run the h2/h3 tag replacer over the result. -/
def headingText (lvl : Nat) (inner : String) : String :=
  String.mk (stripHeadingTags (renderHeadingHtml lvl inner).data)

/-- Extraction including the post-processing `WriteHtml` applies to the scanned
nodes: heading text via the tag replacer, body HTML as the in-order
concatenation of the rendered paragraphs (src/unnamed/part_001:198-212). -/
def extractParts (nodes : List MdNode) : Except ExtractErr (String × String) :=
  match scanNodes nodes none [] with
  | .error e => .error e
  | .ok ((lvl, inner), ps) => .ok (headingText lvl inner, String.join ps)

/-- Modelled from the spec (§4.1): heading text is "produced by rendering the
heading node to HTML and stripping only the heading-level wrapper tags",
whatever the heading's level; removing exactly the `<hN>`/`</hN>` wrapper from
`renderHeadingHtml lvl inner` leaves the inline HTML `inner`. -/
def specHeadingText (_lvl : Nat) (inner : String) : String := inner

/-- Error of the registry `set` operation: the sqlite UNIQUE index on the
`name` column rejects a second row for the same post name
(src/unnamed/part_004:79,95-100). -/
inductive RegErr
  | DuplicateEntry
deriving DecidableEq, Repr

/-- One collection's `posts` table: `(name, dt_posted)` rows in insertion
order, dates stored date-only (src/unnamed/part_004:74-80). -/
abbrev RegEntries := List (String × Nat)

/-- `sqliteRegistry.GetPublicationDate` (src/unnamed/part_004:119-131):
`SELECT dt_posted FROM posts WHERE name = ?`; a missing row is the normal
`(nil, nil)` outcome, a present row scans the stored date-only value back as a
midnight `time.Time`. -/
def getPublicationDate (es : RegEntries) (name : String) : Option Timestamp :=
  (es.find? (fun e => e.1 == name)).map (fun e => ⟨e.2, 0⟩)

/-- `sqliteRegistry.SetPublicationDate` (src/unnamed/part_004:91-114):
`INSERT INTO posts ... RETURNING dt_posted`.  With `t = none` the database
default `CURRENT_DATE` (today's calendar day) is stored; with an explicit `t`
the value `t.Format(time.DateOnly)` — the day component only — is stored.  The
UNIQUE index on `name` makes the insert fail on an existing name, leaving the
table unchanged.  The RETURNING row scans back as a midnight `time.Time`. -/
def setPublicationDate (es : RegEntries) (name : String) (t : Option Timestamp)
    (today : Timestamp) : Except RegErr Timestamp × RegEntries :=
  if (es.find? (fun e => e.1 == name)).isSome then
    (.error .DuplicateEntry, es)
  else
    let day : Nat := match t with
      | none => today.day
      | some ts => ts.day
    (.ok ⟨day, 0⟩, es ++ [(name, day)])

/-- Model of `createSqliteRegistry` (src/unnamed/part_004:59-86) acting on the
backing file at the location.  `none` means `blog.sqlite` is absent; `some es`
means it holds a `posts` table with rows `es`.  `os.Create` (line 62) creates
the file if absent and truncates it to length zero if it exists; opening the
truncated file yields an empty database, and the `CREATE TABLE IF NOT EXISTS` /
`CREATE UNIQUE INDEX IF NOT EXISTS` statements (lines 74-80) then create an
empty `posts` table.  Returns the table the new handle sees and the resulting
file state. -/
def createSqliteRegistry (file : Option RegEntries) : RegEntries × Option RegEntries :=
  let afterCreate : RegEntries := []
  let afterInit : RegEntries := afterCreate
  let _ := file
  (afterInit, some afterInit)

/-- Process state seen by one collection's posts: whether the registry pool
already holds a handle for the collection's location (`sync.Map` hit), and the
backing `blog.sqlite` file (src/unnamed/part_004:37-57). -/
structure ProcState where
  poolMap : Bool
  store : Option RegEntries
deriving DecidableEq, Repr

/-- `sqlitePool.Acquire` (src/unnamed/part_004:45-57) as seen by a single
(non-racing) caller: a pool hit returns the cached handle and leaves the file
alone; a miss runs `createSqliteRegistry` — creating/truncating the file — and
installs the handle. -/
def acquire (s : ProcState) : ProcState :=
  if s.poolMap then s
  else { poolMap := true, store := (createSqliteRegistry s.store).2 }

/-- The fresh state of a brand-new collection: no pool entry, no
`blog.sqlite`. -/
def freshProc : ProcState := { poolMap := false, store := none }

/-- Everything `WriteHtml` consumes for one post: its registry name
(`filepath.Base` of the source file), the parsed top-level nodes of its
Markdown, the tracking flag, and the black-boxed success of the three phases
that follow date resolution (template parse, template execution, writer). -/
structure PostInput where
  name : String
  nodes : List MdNode
  tracking : Bool
  tmplParseOk : Bool
  tmplExecOk : Bool
  writeOk : Bool
deriving DecidableEq, Repr

/-- The failure modes of `WriteHtml` (src/unnamed/part_001:162-258) reachable
in this model. -/
inductive WriteErr
  | Extract (e : ExtractErr)
  | Backend
  | TemplateParse
  | TemplateExec
  | WriterErr
deriving DecidableEq, Repr

/-- What a successful `WriteHtml` produces: the bytes written to `w` and the
`DtPosted` field it rendered into them. -/
structure RenderOut where
  html : String
  dtPosted : String
deriving DecidableEq, Repr

/-- `DefaultOptions.Template` (src/unnamed/part_001:33-39) instantiated with
the three placeholders. -/
def defaultTemplate (heading dtPosted content : String) : String :=
  "<div class=\"blog-post\">\n<h2>" ++ heading ++ "</h2>\n<span class=\"dt-posted\">"
    ++ dtPosted ++ "</span>\n" ++ content ++ "\n</div>"

/-- The tail of `WriteHtml` after the publication date is resolved
(src/unnamed/part_001:241-257): format the date, parse the template, execute
it, write the buffer out.  Each failing phase returns its error; none of them
touches the registry state. -/
def finishRender (p : PostInput) (hc : String × String) (dt : String) (s : ProcState) :
    Except WriteErr RenderOut × ProcState :=
  if p.tmplParseOk then
    if p.tmplExecOk then
      if p.writeOk then (.ok ⟨defaultTemplate hc.1 dt hc.2, dt⟩, s)
      else (.error .WriterErr, s)
    else (.error .TemplateExec, s)
  else (.error .TemplateParse, s)

/-- `blogPost.WriteHtml` (src/unnamed/part_001:162-258): extract the document;
with tracking enabled acquire the collection's registry handle, `get` the
stored date, and when absent `set` with no explicit date (stamping today);
with tracking disabled use today directly; then render through the template.
The registry insert happens before the template phase, so a template or writer
failure leaves the freshly inserted entry in the store. -/
def writeHtml (p : PostInput) (today : Timestamp) (s : ProcState) :
    Except WriteErr RenderOut × ProcState :=
  match extractParts p.nodes with
  | .error e => (.error (.Extract e), s)
  | .ok hc =>
    if p.tracking then
      let s1 := acquire s
      match getPublicationDate (s1.store.getD []) p.name with
      | some d => finishRender p hc (formatDate d.day) s1
      | none =>
        match setPublicationDate (s1.store.getD []) p.name none today with
        | (Except.ok d, es) => finishRender p hc (formatDate d.day) { s1 with store := some es }
        | (Except.error _, es) => (.error .Backend, { s1 with store := some es })
    else finishRender p hc (formatDate today.day) s

/-- Number of registry rows a state holds for a given post name. -/
def countEntries (s : ProcState) (name : String) : Nat :=
  ((s.store.getD []).filter (fun e => e.1 == name)).length


/-- Where one `Acquire` caller stands in the body of
`sqlitePool.Acquire` (src/unnamed/part_004:45-57): not yet started;
past `pool.Load` with a miss and past `createSqliteRegistry`, holding its own
freshly created handle `h`; or returned with handle `ret`. -/
inductive AcqPhase
  | start
  | created (h : Nat)
  | done (ret : Nat)
deriving DecidableEq, Repr

/-- State shared by racing acquirers of one location: the `sync.Map` slot for
the location (the installed handle, if any), the id the next
`createSqliteRegistry` call will mint (equivalently, how many handles have been
created so far), and the backing `blog.sqlite` file. -/
structure PoolSt where
  slot : Option Nat
  next : Nat
  file : Option RegEntries
deriving DecidableEq, Repr

/-- One atomic step of a single acquirer:
`start` performs `pool.Load` (line 46) and, on a miss, `createSqliteRegistry`
(line 51) — minting a new handle and creating/truncating the file;
`created h` performs `pool.LoadOrStore(directory, registry)` (line 55), whose
return value the code discards, and then `return registry, nil` (line 56) —
returning its own handle `h` whether or not the store won the race. -/
def acqStep (s : PoolSt) : AcqPhase → PoolSt × AcqPhase
  | .start =>
    match s.slot with
    | some v => (s, .done v)
    | none =>
      ({ s with next := s.next + 1, file := (createSqliteRegistry s.file).2 },
        .created s.next)
  | .created h =>
    match s.slot with
    | some _ => (s, .done h)
    | none => ({ s with slot := some h }, .done h)
  | .done r => (s, .done r)

/-- Interleave two acquirers `a` and `b` of the same location: `true` steps
`a`, `false` steps `b`. -/
def runTwo : List Bool → PoolSt → AcqPhase → AcqPhase → PoolSt × AcqPhase × AcqPhase
  | [], s, a, b => (s, a, b)
  | true :: rest, s, a, b =>
    let sa := acqStep s a
    runTwo rest sa.1 sa.2 b
  | false :: rest, s, a, b =>
    let sb := acqStep s b
    runTwo rest sb.1 a sb.2

/-- Per-post outcome of `post.WriteHtml` as the collection renderers see it:
either the post's rendered HTML bytes or its error text.  Both renderers in
src/pkg/blog.go treat the per-post render as a black box with exactly this
interface. -/
abbrev PostResult := Except String String

/-- `blog.RenderPosts` (src/pkg/blog.go:28-37): render each post in collection
order into one shared buffer; the first failing post aborts with a wrapped
error and empty bytes. -/
def renderPostsSeq : List PostResult → Except String String
  | [] => .ok ""
  | Except.error e :: _ => .error ("could not render html for post: " ++ e)
  | Except.ok h :: rest =>
    match renderPostsSeq rest with
    | Except.ok acc => .ok (h ++ acc)
    | Except.error e => .error e

/-- The goroutine fan-out of `blog.RenderPostsAsync` (src/pkg/blog.go:43-53):
tasks complete in the order given by `order`; a successful task stores its
bytes in its own index slot of `bufSlice`, a failing task leaves its slot `none`
and offers its error to the `errgroup`, which keeps only the first error
observed. -/
def runTasks (posts : List PostResult) :
    List Nat → List (Option String) → Option String → List (Option String) × Option String
  | [], slots, err => (slots, err)
  | i :: rest, slots, err =>
    match posts[i]? with
    | some (Except.ok h) => runTasks posts rest (slots.set i (some h)) err
    | some (Except.error e) => runTasks posts rest slots (err.orElse (fun _ => some e))
    | none => runTasks posts rest slots err

/-- Concatenate the result slots in index order (src/pkg/blog.go:57-61); an
unset slot contributes nothing, like writing a nil byte slice. -/
def joinSlots : List (Option String) → String
  | [] => ""
  | s :: rest => s.getD "" ++ joinSlots rest

/-- `blog.RenderPostsAsync` (src/pkg/blog.go:40-63) under completion order
`order`: run all tasks, then `g.Wait()`; on any task failure the code hits
`return []byte{}, nil` (line 55) — empty bytes and a nil error; otherwise the
slots are concatenated in index order. -/
def renderPostsAsync (posts : List PostResult) (order : List Nat) : Except String String :=
  let r := runTasks posts order (List.replicate posts.length none) none
  match r.2 with
  | some _ => .ok ""
  | none => .ok (joinSlots r.1)

/-- The concatenation, in collection order, of the successful posts' HTML. -/
def concatOks (posts : List PostResult) : String :=
  match posts with
  | [] => ""
  | Except.ok h :: rest => h ++ concatOks rest
  | Except.error _ :: rest => concatOks rest

/-- A node the classification loop accepts without `UnsupportedBlock`ing and
without touching the heading state: a paragraph. -/
def isParagraphNode : MdNode → Bool
  | MdNode.paragraph _ => true
  | _ => false

/-- Sanity examples (evaluations of the definitions on concrete inputs). -/
example : extract [MdNode.heading 2 "T", MdNode.paragraph "<p>x</p>"]
    = .ok ((2, "T"), ["<p>x</p>"]) := rfl

example : headingText 2 "Hello" = "Hello" := by decide

example : headingText 1 "Hello" = "<h1>Hello</h1>" := by decide

example : runTwo [true, true] ⟨none, 0, none⟩ .start .start
    = (⟨some 0, 1, some []⟩, .done 0, .start) := rfl

example : renderPostsSeq [Except.ok "A", Except.ok "B"] = .ok "AB" := rfl

example : renderPostsAsync [Except.ok "A", Except.ok "B"] [1, 0] = .ok "AB" := rfl

/-- C7: a `SetPublicationDate` call for a name that already has a registry
entry fails with the duplicate-entry (uniqueness-violation) error and does not
overwrite: afterwards the stored date for that name is the date stored before
the call, so each post is assigned a publication date at most once. -/
theorem c7_duplicate_set_fails (es : RegEntries) (name : String)
    (t : Option Timestamp) (today d0 : Timestamp)
    (h : getPublicationDate es name = some d0) :
    (setPublicationDate es name t today).1 = .error .DuplicateEntry ∧
    getPublicationDate (setPublicationDate es name t today).2 name = some d0 := by
  have hf : (es.find? (fun e => e.1 == name)).isSome := by
    cases hfind : es.find? (fun e => e.1 == name) <;>
      simp [getPublicationDate, hfind] at h ⊢
  refine ⟨?_, ?_⟩ <;> simp [setPublicationDate, hf, h]

/-- Witness for C7 at a concrete store. -/
theorem c7_duplicate_set_fails_witness :
    (setPublicationDate [("001_a.md", 42)] "001_a.md" (some ⟨50, 3600⟩) ⟨50, 0⟩).1
        = .error .DuplicateEntry ∧
    getPublicationDate
        (setPublicationDate [("001_a.md", 42)] "001_a.md" (some ⟨50, 3600⟩) ⟨50, 0⟩).2
        "001_a.md" = some ⟨42, 0⟩ :=
  c7_duplicate_set_fails [("001_a.md", 42)] "001_a.md" (some ⟨50, 3600⟩) ⟨50, 0⟩ ⟨42, 0⟩ rfl

/-- C8: every date a successful `SetPublicationDate` returns, and every date a
subsequent `GetPublicationDate` returns for that name, has its time-of-day
component truncated to midnight — the stored value keeps only the calendar day
of an explicitly supplied date, even one carrying a non-midnight time. -/
theorem c8_dates_midnight (es : RegEntries) (name : String) (t : Option Timestamp)
    (today ts : Timestamp) (es' : RegEntries)
    (hset : setPublicationDate es name t today = (.ok ts, es')) :
    ts.secs = 0 ∧ getPublicationDate es' name = some ts ∧
    (∀ d, t = some d → ts.day = d.day) := by
  unfold setPublicationDate at hset
  by_cases hf : (es.find? (fun e => e.1 == name)).isSome
  · simp [hf] at hset
  · simp only [hf, if_false, Bool.false_eq_true] at hset
    have hnone : es.find? (fun e => e.1 == name) = none := by
      cases hfind : es.find? (fun e => e.1 == name) <;> simp [hfind] at hf ⊢
    obtain ⟨hts, hes⟩ := Prod.mk.injEq .. ▸ hset
    have hts' := hts
    cases t <;> simp at hts' <;>
      (try obtain rfl := hts'.symm) <;>
      subst hes <;>
      simp [getPublicationDate, List.find?_append, hnone, ← hts']

/-- Witness for C8: an explicit date carrying time-of-day 12345 seconds is
stored and returned as midnight of the same calendar day. -/
theorem c8_dates_midnight_witness :
    (⟨20000, 0⟩ : Timestamp).secs = 0 ∧
    getPublicationDate [("001_a.md", 20000)] "001_a.md" = some ⟨20000, 0⟩ ∧
    (∀ d, (some ⟨20000, 12345⟩ : Option Timestamp) = some d →
      (⟨20000, 0⟩ : Timestamp).day = d.day) :=
  c8_dates_midnight [] "001_a.md" (some ⟨20000, 12345⟩) ⟨20001, 7⟩ ⟨20000, 0⟩
    [("001_a.md", 20000)] rfl

/-- C3 (refuting evaluation): re-running registry initialization against an
existing backing store is not a no-op — whatever rows the store held, the
`os.Create` truncation leaves an empty store behind; in particular an existing
entry `("001_a.md", 19700)` is erased. -/
theorem c3_reinit_truncates :
    (∀ es : RegEntries, createSqliteRegistry (some es) = ([], some [])) ∧
    (createSqliteRegistry (some [("001_a.md", 19700)])).2 ≠ some [("001_a.md", 19700)] := by
  refine ⟨fun es => rfl, ?_⟩
  decide

/-- C9 (refuting evaluation): two acquirers race on first access to a location
(schedule: A loads and creates, B loads and creates, A installs via
LoadOrStore, B's LoadOrStore loses).  Result: two handles were created
(`next = 2`), the map holds A's handle 0, yet B returns its own handle 1 —
not the handle the winner installed. -/
theorem c9_race_returns_distinct_handles :
    runTwo [true, false, true, false] ⟨none, 0, none⟩ .start .start
      = (⟨some 0, 2, some []⟩, .done 0, .done 1) ∧
    AcqPhase.done 1 ≠ AcqPhase.done 0 := by
  refine ⟨rfl, ?_⟩
  decide

/-- C1 (refuting evaluation): when one task of the concurrent render fails
(here the second post, completing first under order `[1, 0]`),
`RenderPostsAsync` returns empty bytes with a nil error — the failure is
swallowed rather than reported — while the sequential renderer surfaces it;
the successful post's partial render is indeed discarded. -/
theorem c1_async_swallows_error :
    renderPostsAsync [Except.ok "<p>a</p>", Except.error "no heading found"] [1, 0]
      = Except.ok "" ∧
    renderPostsSeq [Except.ok "<p>a</p>", Except.error "no heading found"]
      = Except.error "could not render html for post: no heading found" := by
  exact ⟨rfl, rfl⟩

/-- Stepping lemmas for the tag replacer: a matched tag is deleted wholesale
(the `strip_openTag`/`strip_closeTag` pair), and a position at which no tag
matches emits one character (the `..._ne` family, one lemma per depth at which
the mismatch is detected). -/
theorem strip_openTag (a : Char) (l : List Char) (ha : a = '2' ∨ a = '3') :
    stripHeadingTags ('<' :: 'h' :: a :: '>' :: l) = stripHeadingTags l := by
  rcases ha with rfl | rfl <;> rfl

theorem strip_closeTag (a : Char) (l : List Char) (ha : a = '2' ∨ a = '3') :
    stripHeadingTags ('<' :: '/' :: 'h' :: a :: '>' :: l) = stripHeadingTags l := by
  rcases ha with rfl | rfl <;> rfl

theorem strip_cons_ne (c : Char) (l : List Char) (h : c ≠ '<') :
    stripHeadingTags (c :: l) = c :: stripHeadingTags l := by
  rw [stripHeadingTags.eq_def]
  split <;>
    first
      | (rename_i heq; obtain ⟨rfl, rfl⟩ := heq; rfl)
      | simp_all

theorem strip_lt_ne (b : Char) (l : List Char) (hb : b ≠ 'h') (hb' : b ≠ '/') :
    stripHeadingTags ('<' :: b :: l) = '<' :: stripHeadingTags (b :: l) := by
  rw [stripHeadingTags.eq_def]
  split <;>
    first
      | (rename_i heq; obtain ⟨rfl, rfl⟩ := heq; rfl)
      | simp_all

theorem strip_lth_ne (c : Char) (l : List Char) (hc : c ≠ '2') (hc' : c ≠ '3') :
    stripHeadingTags ('<' :: 'h' :: c :: l) = '<' :: stripHeadingTags ('h' :: c :: l) := by
  rw [stripHeadingTags.eq_def]
  split <;>
    first
      | (rename_i heq; obtain ⟨rfl, rfl⟩ := heq; rfl)
      | simp_all

theorem strip_lha_ne (a d : Char) (l : List Char) (ha : a = '2' ∨ a = '3') (hd : d ≠ '>') :
    stripHeadingTags ('<' :: 'h' :: a :: d :: l) = '<' :: stripHeadingTags ('h' :: a :: d :: l) := by
  rcases ha with rfl | rfl <;>
    (rw [stripHeadingTags.eq_def]
     split <;>
       first
         | (rename_i heq; obtain ⟨rfl, rfl⟩ := heq; rfl)
         | simp_all)

theorem strip_ls_ne (c : Char) (l : List Char) (hc : c ≠ 'h') :
    stripHeadingTags ('<' :: '/' :: c :: l) = '<' :: stripHeadingTags ('/' :: c :: l) := by
  rw [stripHeadingTags.eq_def]
  split <;>
    first
      | (rename_i heq; obtain ⟨rfl, rfl⟩ := heq; rfl)
      | simp_all

theorem strip_lsh_ne (d : Char) (l : List Char) (hd : d ≠ '2') (hd' : d ≠ '3') :
    stripHeadingTags ('<' :: '/' :: 'h' :: d :: l) = '<' :: stripHeadingTags ('/' :: 'h' :: d :: l) := by
  rw [stripHeadingTags.eq_def]
  split <;>
    first
      | (rename_i heq; obtain ⟨rfl, rfl⟩ := heq; rfl)
      | simp_all

theorem strip_lsha_ne (a e : Char) (l : List Char) (ha : a = '2' ∨ a = '3') (he : e ≠ '>') :
    stripHeadingTags ('<' :: '/' :: 'h' :: a :: e :: l)
      = '<' :: stripHeadingTags ('/' :: 'h' :: a :: e :: l) := by
  rcases ha with rfl | rfl <;>
    (rw [stripHeadingTags.eq_def]
     split <;>
       first
         | (rename_i heq; obtain ⟨rfl, rfl⟩ := heq; rfl)
         | simp_all)

theorem strip_append_close (ys : List Char) (hys : ys = closeH2 ∨ ys = closeH3) :
    ∀ xs : List Char, stripHeadingTags (xs ++ ys) = stripHeadingTags xs
  | [] => by rcases hys with rfl | rfl <;> decide
  | [a] => by
    by_cases ha : a = '<'
    · subst ha; rcases hys with rfl | rfl <;> decide
    · simp only [List.cons_append, List.nil_append]
      rw [strip_cons_ne a ys ha, strip_cons_ne a [] ha]
      exact congrArg _ (strip_append_close ys hys [])
  | [a, b] => by
    simp only [List.cons_append, List.nil_append]
    by_cases ha : a = '<'
    · subst ha
      by_cases hbh : b = 'h'
      · subst hbh; rcases hys with rfl | rfl <;> decide
      · by_cases hbs : b = '/'
        · subst hbs; rcases hys with rfl | rfl <;> decide
        · rw [strip_lt_ne b ys hbh hbs, strip_lt_ne b [] hbh hbs]
          exact congrArg _ (strip_append_close ys hys [b])
    · rw [strip_cons_ne a (b :: ys) ha, strip_cons_ne a [b] ha]
      exact congrArg _ (strip_append_close ys hys [b])
  | [a, b, c] => by
    simp only [List.cons_append, List.nil_append]
    by_cases ha : a = '<'
    · subst ha
      by_cases hbh : b = 'h'
      · subst hbh
        by_cases hc2 : c = '2'
        · subst hc2; rcases hys with rfl | rfl <;> decide
        · by_cases hc3 : c = '3'
          · subst hc3; rcases hys with rfl | rfl <;> decide
          · rw [strip_lth_ne c ys hc2 hc3, strip_lth_ne c [] hc2 hc3]
            exact congrArg _ (strip_append_close ys hys ['h', c])
      · by_cases hbs : b = '/'
        · subst hbs
          by_cases hch : c = 'h'
          · subst hch; rcases hys with rfl | rfl <;> decide
          · rw [strip_ls_ne c ys hch, strip_ls_ne c [] hch]
            exact congrArg _ (strip_append_close ys hys ['/', c])
        · rw [strip_lt_ne b (c :: ys) hbh hbs, strip_lt_ne b [c] hbh hbs]
          exact congrArg _ (strip_append_close ys hys [b, c])
    · rw [strip_cons_ne a (b :: c :: ys) ha, strip_cons_ne a [b, c] ha]
      exact congrArg _ (strip_append_close ys hys [b, c])
  | [a, b, c, d] => by
    simp only [List.cons_append, List.nil_append]
    by_cases ha : a = '<'
    · subst ha
      by_cases hbh : b = 'h'
      · subst hbh
        by_cases hc : c = '2' ∨ c = '3'
        · by_cases hd : d = '>'
          · subst hd; rcases hc with rfl | rfl <;> rcases hys with rfl | rfl <;> decide
          · rw [strip_lha_ne c d ys hc hd, strip_lha_ne c d [] hc hd]
            exact congrArg _ (strip_append_close ys hys ['h', c, d])
        · push_neg at hc
          rw [strip_lth_ne c (d :: ys) hc.1 hc.2, strip_lth_ne c [d] hc.1 hc.2]
          exact congrArg _ (strip_append_close ys hys ['h', c, d])
      · by_cases hbs : b = '/'
        · subst hbs
          by_cases hch : c = 'h'
          · subst hch
            by_cases hd : d = '2' ∨ d = '3'
            · rcases hd with rfl | rfl <;> rcases hys with rfl | rfl <;> decide
            · push_neg at hd
              rw [strip_lsh_ne d ys hd.1 hd.2, strip_lsh_ne d [] hd.1 hd.2]
              exact congrArg _ (strip_append_close ys hys ['/', 'h', d])
          · rw [strip_ls_ne c (d :: ys) hch, strip_ls_ne c [d] hch]
            exact congrArg _ (strip_append_close ys hys ['/', c, d])
        · rw [strip_lt_ne b (c :: d :: ys) hbh hbs, strip_lt_ne b [c, d] hbh hbs]
          exact congrArg _ (strip_append_close ys hys [b, c, d])
    · rw [strip_cons_ne a (b :: c :: d :: ys) ha, strip_cons_ne a [b, c, d] ha]
      exact congrArg _ (strip_append_close ys hys [b, c, d])
  | a :: b :: c :: d :: e :: rest => by
    simp only [List.cons_append]
    by_cases ha : a = '<'
    · subst ha
      by_cases hbh : b = 'h'
      · subst hbh
        by_cases hc : c = '2' ∨ c = '3'
        · by_cases hd : d = '>'
          · subst hd
            rw [strip_openTag c (e :: (rest ++ ys)) hc, strip_openTag c (e :: rest) hc]
            exact strip_append_close ys hys (e :: rest)
          · rw [strip_lha_ne c d (e :: (rest ++ ys)) hc hd, strip_lha_ne c d (e :: rest) hc hd]
            exact congrArg _ (strip_append_close ys hys ('h' :: c :: d :: e :: rest))
        · push_neg at hc
          rw [strip_lth_ne c (d :: e :: (rest ++ ys)) hc.1 hc.2,
            strip_lth_ne c (d :: e :: rest) hc.1 hc.2]
          exact congrArg _ (strip_append_close ys hys ('h' :: c :: d :: e :: rest))
      · by_cases hbs : b = '/'
        · subst hbs
          by_cases hch : c = 'h'
          · subst hch
            by_cases hd : d = '2' ∨ d = '3'
            · by_cases he : e = '>'
              · subst he
                rw [strip_closeTag d (rest ++ ys) hd, strip_closeTag d rest hd]
                exact strip_append_close ys hys rest
              · rw [strip_lsha_ne d e (rest ++ ys) hd he, strip_lsha_ne d e rest hd he]
                exact congrArg _ (strip_append_close ys hys ('/' :: 'h' :: d :: e :: rest))
            · push_neg at hd
              rw [strip_lsh_ne d (e :: (rest ++ ys)) hd.1 hd.2, strip_lsh_ne d (e :: rest) hd.1 hd.2]
              exact congrArg _ (strip_append_close ys hys ('/' :: 'h' :: d :: e :: rest))
          · rw [strip_ls_ne c (d :: e :: (rest ++ ys)) hch, strip_ls_ne c (d :: e :: rest) hch]
            exact congrArg _ (strip_append_close ys hys ('/' :: c :: d :: e :: rest))
        · rw [strip_lt_ne b (c :: d :: e :: (rest ++ ys)) hbh hbs,
            strip_lt_ne b (c :: d :: e :: rest) hbh hbs]
          exact congrArg _ (strip_append_close ys hys (b :: c :: d :: e :: rest))
    · rw [strip_cons_ne a (b :: c :: d :: e :: (rest ++ ys)) ha,
        strip_cons_ne a (b :: c :: d :: e :: rest) ha]
      exact congrArg _ (strip_append_close ys hys (b :: c :: d :: e :: rest))
termination_by xs => xs.length

/-- C2: with tracking enabled on a fresh collection, two `WriteHtml` calls for
the same post return identical output with the identical formatted publication
date — the first call stamps the first call's "today", the second call
reproduces that stored date even though its own build date differs — and the
store afterwards holds exactly one registry entry for the post. -/
theorem c2_publication_date_idempotent (p : PostInput) (today1 today2 : Timestamp)
    (hc : String × String) (htr : p.tracking = true)
    (hex : extractParts p.nodes = .ok hc)
    (hp : p.tmplParseOk = true) (he : p.tmplExecOk = true) (hw : p.writeOk = true) :
    writeHtml p today1 freshProc
        = (.ok ⟨defaultTemplate hc.1 (formatDate today1.day) hc.2, formatDate today1.day⟩,
           ⟨true, some [(p.name, today1.day)]⟩) ∧
    writeHtml p today2 ⟨true, some [(p.name, today1.day)]⟩
        = (.ok ⟨defaultTemplate hc.1 (formatDate today1.day) hc.2, formatDate today1.day⟩,
           ⟨true, some [(p.name, today1.day)]⟩) ∧
    countEntries ⟨true, some [(p.name, today1.day)]⟩ p.name = 1 := by
  refine ⟨?_, ?_, ?_⟩
  · simp [writeHtml, hex, htr, freshProc, acquire, createSqliteRegistry,
      getPublicationDate, setPublicationDate, finishRender, hp, he, hw]
  · simp [writeHtml, hex, htr, acquire, getPublicationDate, setPublicationDate,
      finishRender, hp, he, hw]
  · simp [countEntries]

/-- Witness for C2: a concrete post rendered on day 20000 and re-rendered on
day 20001 shows the stamped date 20000 both times, with one stored entry. -/
theorem c2_publication_date_idempotent_witness :
    writeHtml ⟨"001_a.md", [MdNode.heading 2 "T", MdNode.paragraph "<p>x</p>"],
        true, true, true, true⟩ ⟨20000, 0⟩ freshProc
      = (.ok ⟨defaultTemplate "T" (formatDate 20000) "<p>x</p>", formatDate 20000⟩,
         ⟨true, some [("001_a.md", 20000)]⟩) ∧
    writeHtml ⟨"001_a.md", [MdNode.heading 2 "T", MdNode.paragraph "<p>x</p>"],
        true, true, true, true⟩ ⟨20001, 0⟩ ⟨true, some [("001_a.md", 20000)]⟩
      = (.ok ⟨defaultTemplate "T" (formatDate 20000) "<p>x</p>", formatDate 20000⟩,
         ⟨true, some [("001_a.md", 20000)]⟩) ∧
    countEntries ⟨true, some [("001_a.md", 20000)]⟩ "001_a.md" = 1 :=
  c2_publication_date_idempotent
    ⟨"001_a.md", [MdNode.heading 2 "T", MdNode.paragraph "<p>x</p>"], true, true, true, true⟩
    ⟨20000, 0⟩ ⟨20001, 0⟩ ("T", "<p>x</p>") rfl rfl rfl rfl rfl

/-- C10: with tracking enabled and no registry entry yet for the post,
`WriteHtml` inserts the entry before the template phase; when the template
parse, template execution, or writer subsequently fails, the call returns an
error but the entry inserted during that same call remains in the store. -/
theorem c10_entry_persists_on_late_failure (p : PostInput) (today : Timestamp)
    (es : RegEntries) (hc : String × String) (htr : p.tracking = true)
    (hex : extractParts p.nodes = .ok hc)
    (hnone : getPublicationDate es p.name = none)
    (hfail : p.tmplParseOk = false ∨ p.tmplExecOk = false ∨ p.writeOk = false) :
    (∃ e, (writeHtml p today ⟨true, some es⟩).1 = .error e ∧
      (e = WriteErr.TemplateParse ∨ e = WriteErr.TemplateExec ∨ e = WriteErr.WriterErr)) ∧
    (writeHtml p today ⟨true, some es⟩).2.store = some (es ++ [(p.name, today.day)]) := by
  have hfind : es.find? (fun e => e.1 == p.name) = none := by
    cases hfind : es.find? (fun e => e.1 == p.name) <;>
      simp [getPublicationDate, hfind] at hnone ⊢
  have hred : writeHtml p today ⟨true, some es⟩ =
      finishRender p hc (formatDate today.day) ⟨true, some (es ++ [(p.name, today.day)])⟩ := by
    simp [writeHtml, hex, htr, acquire, getPublicationDate, hfind, setPublicationDate]
  rw [hred]
  unfold finishRender
  rcases hfail with h | h | h
  · simp [h]
  · cases hp : p.tmplParseOk <;> simp [h, hp]
  · cases hp : p.tmplParseOk <;> cases he : p.tmplExecOk <;> simp [h, hp, he]

/-- Witness for C10: a post whose template fails to parse still leaves its
freshly stamped entry in the store. -/
theorem c10_entry_persists_on_late_failure_witness :
    (∃ e, (writeHtml ⟨"001_a.md", [MdNode.heading 2 "T", MdNode.paragraph "<p>x</p>"],
        true, false, true, true⟩ ⟨20000, 0⟩ ⟨true, some []⟩).1 = .error e ∧
      (e = WriteErr.TemplateParse ∨ e = WriteErr.TemplateExec ∨ e = WriteErr.WriterErr)) ∧
    (writeHtml ⟨"001_a.md", [MdNode.heading 2 "T", MdNode.paragraph "<p>x</p>"],
        true, false, true, true⟩ ⟨20000, 0⟩ ⟨true, some []⟩).2.store
      = some ([] ++ [("001_a.md", 20000)]) :=
  c10_entry_persists_on_late_failure
    ⟨"001_a.md", [MdNode.heading 2 "T", MdNode.paragraph "<p>x</p>"], true, false, true, true⟩
    ⟨20000, 0⟩ [] ("T", "<p>x</p>") rfl rfl rfl (Or.inl rfl)

/-- Running the classification loop over a block of paragraphs only changes the
paragraph accumulator: the scan continues on the remaining nodes with the same
heading state. -/
theorem scanNodes_paras : ∀ (xs rest : List MdNode) (oh : Option (Nat × String))
    (acc : List String), (∀ n ∈ xs, isParagraphNode n = true) →
    ∃ acc', scanNodes (xs ++ rest) oh acc = scanNodes rest oh acc'
  | [], _, _, acc, _ => ⟨acc, rfl⟩
  | n :: xs', rest, oh, acc, hxs => by
    have hn := hxs n (List.mem_cons_self n xs')
    have hxs' : ∀ m ∈ xs', isParagraphNode m = true :=
      fun m hm => hxs m (List.mem_cons_of_mem _ hm)
    cases n with
    | paragraph h => exact scanNodes_paras xs' rest oh (acc ++ [h]) hxs'
    | heading lvl inner => simp [isParagraphNode] at hn
    | other d => simp [isParagraphNode] at hn

/-- C5 counterexample: a document whose only top-level node is an unsupported
block has zero heading nodes, yet extraction fails with `UnsupportedBlock`,
not with `NoHeading` as the claim states. -/
theorem c5_counterexample :
    extract [MdNode.other "<pre>code</pre>"] = .error .UnsupportedBlock ∧
    ExtractErr.UnsupportedBlock ≠ ExtractErr.NoHeading :=
  ⟨rfl, by decide⟩

/-- C5 (amended): the first defect in document order determines the error.
When every top-level node is a heading or a paragraph: zero headings give
`NoHeading`, and exactly one heading with zero paragraphs gives `NoParagraphs`.
A second heading preceded only by paragraphs (and the first heading) gives
`MultipleHeadings`; an unsupported node preceded by paragraphs and at most one
heading gives `UnsupportedBlock`. -/
theorem c5_extraction_errors :
    (∀ nodes, (∀ n ∈ nodes, isParagraphNode n = true) →
      extract nodes = .error .NoHeading) ∧
    (∀ lvl inner, extract [MdNode.heading lvl inner] = .error .NoParagraphs) ∧
    (∀ xs ys zs l1 i1 l2 i2, (∀ n ∈ xs, isParagraphNode n = true) →
      (∀ n ∈ ys, isParagraphNode n = true) →
      extract (xs ++ MdNode.heading l1 i1 :: (ys ++ MdNode.heading l2 i2 :: zs))
        = .error .MultipleHeadings) ∧
    (∀ xs d zs, ((∀ n ∈ xs, isParagraphNode n = true) ∨
        ∃ as l i bs, xs = as ++ MdNode.heading l i :: bs ∧
          (∀ n ∈ as, isParagraphNode n = true) ∧ (∀ n ∈ bs, isParagraphNode n = true)) →
      extract (xs ++ MdNode.other d :: zs) = .error .UnsupportedBlock) := by
  refine ⟨?_, ?_, ?_, ?_⟩
  · intro nodes hall
    obtain ⟨acc', hacc⟩ := scanNodes_paras nodes [] none [] (by simpa using hall)
    show scanNodes (nodes) none [] = _
    rw [show nodes = nodes ++ [] by simp, hacc]
    rfl
  · intro lvl inner
    rfl
  · intro xs ys zs l1 i1 l2 i2 hxs hys
    obtain ⟨acc', hacc⟩ := scanNodes_paras xs
      (MdNode.heading l1 i1 :: (ys ++ MdNode.heading l2 i2 :: zs)) none [] hxs
    show scanNodes _ none [] = _
    rw [hacc]
    show scanNodes (ys ++ MdNode.heading l2 i2 :: zs) (some (l1, i1)) acc'
      = .error .MultipleHeadings
    obtain ⟨acc'', hacc'⟩ := scanNodes_paras ys
      (MdNode.heading l2 i2 :: zs) (some (l1, i1)) acc' hys
    rw [hacc']
    rfl
  · intro xs d zs hshape
    rcases hshape with hall | ⟨as, l, i, bs, rfl, has, hbs⟩
    · obtain ⟨acc', hacc⟩ := scanNodes_paras xs (MdNode.other d :: zs) none [] hall
      show scanNodes _ none [] = _
      rw [hacc]
      rfl
    · show scanNodes _ none [] = _
      rw [List.append_assoc, List.cons_append]
      obtain ⟨acc', hacc⟩ := scanNodes_paras as
        (MdNode.heading l i :: (bs ++ MdNode.other d :: zs)) none [] has
      rw [hacc]
      show scanNodes (bs ++ MdNode.other d :: zs) (some (l, i)) acc'
        = .error .UnsupportedBlock
      obtain ⟨acc'', hacc'⟩ := scanNodes_paras bs (MdNode.other d :: zs) (some (l, i)) acc' hbs
      rw [hacc']
      rfl

/-- Witness for C5 (amended), one concrete document per error case. -/
theorem c5_extraction_errors_witness :
    extract [MdNode.paragraph "<p>a</p>"] = .error .NoHeading ∧
    extract [MdNode.heading 2 "T"] = .error .NoParagraphs ∧
    extract [MdNode.paragraph "<p>a</p>", MdNode.heading 2 "T", MdNode.heading 3 "U"]
      = .error .MultipleHeadings ∧
    extract [MdNode.heading 2 "T", MdNode.other "<pre>c</pre>"]
      = .error .UnsupportedBlock :=
  ⟨c5_extraction_errors.1 [MdNode.paragraph "<p>a</p>"] (by decide),
   c5_extraction_errors.2.1 2 "T",
   c5_extraction_errors.2.2.1 [MdNode.paragraph "<p>a</p>"] [] [] 2 "T" 3 "U"
     (by decide) (by decide),
   c5_extraction_errors.2.2.2 [MdNode.heading 2 "T"] "<pre>c</pre>" []
     (Or.inr ⟨[], 2, "T", [], rfl, by decide, by decide⟩)⟩

/-- C6 counterexample: for a level-1 heading the replacer strips nothing — the
extracted heading text keeps the `<h1>`/`</h1>` wrapper, while the claim
(render minus the heading-level wrapper tags, any level) demands the bare
inline text. -/
theorem c6_counterexample :
    headingText 1 "Hello" = "<h1>Hello</h1>" ∧
    specHeadingText 1 "Hello" = "Hello" ∧
    headingText 1 "Hello" ≠ specHeadingText 1 "Hello" :=
  ⟨by decide, rfl, by decide⟩

/-- C6 (amended): for headings of level 2 or 3 — the only levels whose wrapper
tags the replacer knows — and inline HTML through which the replacer passes
unchanged (no h2/h3 tag substrings, as nested links and emphasis never produce
them), the extracted heading text is exactly the inline HTML with the wrapper
stripped and the nested markup intact; other heading levels keep their wrapper
(see the counterexample). -/
theorem c6_heading_strip (lvl : Nat) (inner : String) (hlvl : lvl = 2 ∨ lvl = 3)
    (hclean : stripHeadingTags inner.data = inner.data) :
    headingText lvl inner = specHeadingText lvl inner ∧
    ∀ ph, extractParts [MdNode.heading lvl inner, MdNode.paragraph ph]
      = .ok (inner, ph) := by
  have h1 : headingText lvl inner = inner := by
    rcases hlvl with rfl | rfl
    · have hdata : (renderHeadingHtml 2 inner).data
          = '<' :: 'h' :: '2' :: '>' :: (inner.data ++ closeH2) := by
        have h2 : toString (2 : Nat) = "2" := by decide
        simp [renderHeadingHtml, closeH2, String.data_append, h2]
      unfold headingText
      rw [hdata, strip_openTag '2' _ (Or.inl rfl),
        strip_append_close closeH2 (Or.inl rfl) inner.data, hclean]
    · have hdata : (renderHeadingHtml 3 inner).data
          = '<' :: 'h' :: '3' :: '>' :: (inner.data ++ closeH3) := by
        have h3 : toString (3 : Nat) = "3" := by decide
        simp [renderHeadingHtml, closeH3, String.data_append, h3]
      unfold headingText
      rw [hdata, strip_openTag '3' _ (Or.inr rfl),
        strip_append_close closeH3 (Or.inr rfl) inner.data, hclean]
  refine ⟨h1, fun ph => ?_⟩
  show Except.ok (headingText lvl inner, String.join [ph]) = _
  rw [h1]
  rfl

/-- Witness for C6 (amended): a level-2 heading whose inline HTML holds a
rendered link (with the new-context target attribute) comes through with the
wrapper stripped and the link intact. -/
theorem c6_heading_strip_witness :
    headingText 2 "Hello <a href=\"https://example.com\" target=\"_blank\">x</a>"
      = specHeadingText 2 "Hello <a href=\"https://example.com\" target=\"_blank\">x</a>" ∧
    extractParts [MdNode.heading 2 "Hello <a href=\"https://example.com\" target=\"_blank\">x</a>",
        MdNode.paragraph "<p>b</p>"]
      = .ok ("Hello <a href=\"https://example.com\" target=\"_blank\">x</a>", "<p>b</p>") :=
  ⟨(c6_heading_strip 2 "Hello <a href=\"https://example.com\" target=\"_blank\">x</a>"
      (Or.inl rfl) (by decide)).1,
   (c6_heading_strip 2 "Hello <a href=\"https://example.com\" target=\"_blank\">x</a>"
      (Or.inl rfl) (by decide)).2 "<p>b</p>"⟩

/-- When every post renders successfully, the sequential renderer returns the
concatenation of the posts' HTML in collection order. -/
theorem renderPostsSeq_ok : ∀ posts : List PostResult, (∀ r ∈ posts, r.isOk = true) →
    renderPostsSeq posts = .ok (concatOks posts)
  | [], _ => rfl
  | Except.ok h :: rest, hok => by
    have ih := renderPostsSeq_ok rest (fun r hr => hok r (List.mem_cons_of_mem _ hr))
    show (match renderPostsSeq rest with
      | Except.ok acc => Except.ok (h ++ acc)
      | Except.error e => Except.error e) = _
    rw [ih]
    rfl
  | Except.error e :: rest, hok => by
    have := hok (Except.error e) (List.mem_cons_self _ _)
    simp [Except.isOk, Except.toBool] at this

/-- When every task succeeds, the errgroup records no error. -/
theorem runTasks_err_none (posts : List PostResult) (hok : ∀ r ∈ posts, r.isOk = true) :
    ∀ (order : List Nat) (slots : List (Option String)),
    (runTasks posts order slots none).2 = none
  | [], _ => rfl
  | i :: rest, slots => by
    cases hp : posts[i]? with
    | none =>
      simp only [runTasks, hp]
      exact runTasks_err_none posts hok rest slots
    | some r =>
      cases r with
      | ok h =>
        simp only [runTasks, hp]
        exact runTasks_err_none posts hok rest (slots.set i (some h))
      | error e =>
        have := hok _ (List.getElem?_mem hp)
        simp [Except.isOk, Except.toBool] at this

/-- Slot contents after the fan-out: an index that some completed task owns
holds that post's bytes; every other slot is untouched.  Completion order is
irrelevant because each task writes only its own slot. -/
theorem runTasks_getElem (posts : List PostResult) (hok : ∀ r ∈ posts, r.isOk = true) :
    ∀ (order : List Nat) (slots : List (Option String)) (err : Option String) (j : Nat),
    slots.length = posts.length →
    ((runTasks posts order slots err).1)[j]? =
      if j ∈ order ∧ j < posts.length then (posts[j]?).map Except.toOption else slots[j]?
  | [], slots, err, j, hlen => by simp [runTasks]
  | i :: rest, slots, err, j, hlen => by
    cases hp : posts[i]? with
    | none =>
      have hge : posts.length ≤ i := List.getElem?_eq_none_iff.mp hp
      rw [show runTasks posts (i :: rest) slots err = runTasks posts rest slots err by
        simp [runTasks, hp]]
      rw [runTasks_getElem posts hok rest slots err j hlen]
      by_cases hji : j = i
      · subst hji
        simp [Nat.not_lt.mpr hge]
      · simp [List.mem_cons, hji]
    | some r =>
      cases r with
      | error e =>
        have := hok _ (List.getElem?_mem hp)
        simp [Except.isOk, Except.toBool] at this
      | ok h =>
        have hi : i < posts.length := by
          by_contra hge
          rw [List.getElem?_eq_none (Nat.le_of_not_lt hge)] at hp
          cases hp
        rw [show runTasks posts (i :: rest) slots err
            = runTasks posts rest (slots.set i (some h)) err by simp [runTasks, hp]]
        rw [runTasks_getElem posts hok rest (slots.set i (some h)) err j (by simp [hlen])]
        by_cases hji : j = i
        · subst hji
          have hset : (slots.set j (some h))[j]? = some (some h) :=
            List.getElem?_set_self (hlen ▸ hi)
          by_cases hmem : j ∈ rest <;> simp [hmem, hi, hp, hset, Except.toOption]
        · have hset : (slots.set i (some h))[j]? = slots[j]? :=
            List.getElem?_set_ne (fun hh => hji hh.symm)
          simp [List.mem_cons, hji, hset]

/-- Joining the slot list of an all-successful collection gives the in-order
concatenation. -/
theorem joinSlots_map_ok : ∀ posts : List PostResult, (∀ r ∈ posts, r.isOk = true) →
    joinSlots (posts.map Except.toOption) = concatOks posts
  | [], _ => rfl
  | Except.ok h :: rest, hok => by
    have ih := joinSlots_map_ok rest (fun r hr => hok r (List.mem_cons_of_mem _ hr))
    show (some h).getD "" ++ joinSlots (rest.map Except.toOption) = h ++ concatOks rest
    rw [ih]
    rfl
  | Except.error e :: rest, hok => by
    have := hok (Except.error e) (List.mem_cons_self _ _)
    simp [Except.isOk, Except.toBool] at this

/-- C4: for the same collection with every post rendering successfully, the
sequential and the concurrent renderer return byte-for-byte identical output —
the concatenation of the posts' HTML in collection (index) order — whatever
the order in which the concurrent tasks complete. -/
theorem c4_seq_async_identical (posts : List PostResult) (order : List Nat)
    (hperm : order.Perm (List.range posts.length))
    (hok : ∀ r ∈ posts, r.isOk = true) :
    renderPostsSeq posts = .ok (concatOks posts) ∧
    renderPostsAsync posts order = renderPostsSeq posts := by
  have hseq := renderPostsSeq_ok posts hok
  refine ⟨hseq, ?_⟩
  have herr := runTasks_err_none posts hok order (List.replicate posts.length none)
  have hslots : (runTasks posts order (List.replicate posts.length none) none).1
      = posts.map Except.toOption := by
    apply List.ext_getElem?
    intro j
    rw [runTasks_getElem posts hok order _ none j (by simp)]
    by_cases hj : j < posts.length
    · have hmem : j ∈ order := hperm.mem_iff.mpr (List.mem_range.mpr hj)
      simp [hmem, hj]
    · have h1 : posts[j]? = none := List.getElem?_eq_none (Nat.le_of_not_lt hj)
      simp [hj, h1, List.getElem?_replicate]
  simp only [renderPostsAsync, herr, hslots]
  rw [joinSlots_map_ok posts hok, hseq]

/-- Witness for C4: two posts, the second task completing first. -/
theorem c4_seq_async_identical_witness :
    renderPostsSeq [Except.ok "<p>a</p>", Except.ok "<p>b</p>"]
      = .ok (concatOks [Except.ok "<p>a</p>", Except.ok "<p>b</p>"]) ∧
    renderPostsAsync [Except.ok "<p>a</p>", Except.ok "<p>b</p>"] [1, 0]
      = renderPostsSeq [Except.ok "<p>a</p>", Except.ok "<p>b</p>"] :=
  c4_seq_async_identical [Except.ok "<p>a</p>", Except.ok "<p>b</p>"] [1, 0]
    (by decide) (by decide)
